import Mathlib

/-!
Verification of the Dish Registry (FastAPI CRUD service).

Shallow embedding of `src/schemas.py` and `src/main.py`:
prices (`float` in the source) are modelled as rationals, Python `int`
ids as `Int`, and the in-memory list `platos_db` as a `List Plato`.
Pydantic field validation (executed by the framework before a handler
body runs) is modelled as a boolean check performed before the handler
logic; a failing check yields `ApiError.validationError` and the
handler logic never runs, so the registry is untouched.
`HTTPException(status_code=404, detail="Plato not found")` is modelled
as `ApiError.httpException 404 "Plato not found"`.
-/

namespace DishRegistry

/-- Error surface of one request: a pydantic `ValidationError` (HTTP 422,
raised before the handler body runs) or an `HTTPException` with its
status code and detail string. -/
inductive ApiError where
  | validationError : ApiError
  | httpException (statusCode : Nat) (detail : String) : ApiError
deriving DecidableEq, Repr

/-- Schema `Plato` of `src/schemas.py`: the complete dish record stored in
the registry (`id`, `name`, `precio`). -/
structure Plato where
  id : Int
  name : String
  precio : ℚ
deriving DecidableEq, Repr

/-- Schema `PlatoCreate` of `src/schemas.py`: the create payload, both
fields required. -/
structure PlatoCreate where
  name : String
  precio : ℚ
deriving DecidableEq, Repr

/-- Schema `PlatoUpdate` of `src/schemas.py`: the partial-update payload;
`none` models a field absent from the request body (pydantic
`exclude_unset` semantics). -/
structure PlatoUpdate where
  name : Option String := none
  precio : Option ℚ := none
deriving DecidableEq, Repr

/-- Constraint of `Field(..., min_length=1, max_length=100)` on `name`. -/
def validName (name : String) : Bool :=
  decide (1 ≤ name.length) && decide (name.length ≤ 100)

/-- Constraint of `Field(..., gt=0)` on `precio`. -/
def validPrecio (precio : ℚ) : Bool :=
  decide (0 < precio)

/-- Pydantic validation of a `PlatoCreate` payload (both fields checked,
per `PlatoBase`). -/
def validCreate (c : PlatoCreate) : Bool :=
  validName c.name && validPrecio c.precio

/-- Pydantic validation of a `PlatoUpdate` payload: each constraint is
checked only when the optional field is supplied. -/
def validUpdate (u : PlatoUpdate) : Bool :=
  (match u.name with
   | none => true
   | some n => validName n) &&
  (match u.precio with
   | none => true
   | some q => validPrecio q)

/-- First seed record of `platos_db` in `src/main.py`. -/
def pizzaMargherita : Plato :=
  { id := 1, name := "Pizza Margherita", precio := 15.99 }

/-- Second seed record of `platos_db` in `src/main.py`. -/
def pastaCarbonara : Plato :=
  { id := 2, name := "Pasta Carbonara", precio := 12.50 }

/-- Third seed record of `platos_db` in `src/main.py`. -/
def ensaladaCesar : Plato :=
  { id := 3, name := "Ensalada César", precio := 8.99 }

/-- Seed registry of `src/main.py` (`platos_db`): three preloaded records. -/
def platos_db : List Plato :=
  [pizzaMargherita, pastaCarbonara, ensaladaCesar]

/-- Python `max(xs, default=d)`: `d` only when the list is empty,
otherwise the maximum of the elements. -/
def listMaxD (xs : List Int) (d : Int) : Int :=
  match xs with
  | [] => d
  | x :: rest => rest.foldl max x

/-- The id assigned by `create_plato`:
`max([p.id for p in platos_db], default=0) + 1`. -/
def newId (db : List Plato) : Int :=
  listMaxD (db.map Plato.id) 0 + 1

/-- Handler `get_platos` (GET /api/v1/platos): returns the whole list. -/
def get_platos (db : List Plato) : List Plato :=
  db

/-- Handler `get_plato` (GET /api/v1/platos/\x7bplato_id\x7d): first record
with the requested id, else a 404. -/
def get_plato (db : List Plato) (plato_id : Int) : Except ApiError Plato :=
  match db.find? (fun p => p.id == plato_id) with
  | some p => Except.ok p
  | none => Except.error (ApiError.httpException 404 "Plato not found")

/-- Handler `create_plato` (POST /api/v1/platos): after payload
validation, builds `Plato(id=new_id, **plato.model_dump())` and appends
it; returns the created record and the new registry. -/
def create_plato (db : List Plato) (plato : PlatoCreate) :
    Except ApiError (Plato × List Plato) :=
  if validCreate plato then
    let new_plato : Plato :=
      { id := newId db, name := plato.name, precio := plato.precio }
    Except.ok (new_plato, db ++ [new_plato])
  else
    Except.error ApiError.validationError

/-- Merge of `update_plato`: `plato_data = existing.model_dump()`,
`plato_data.update(plato_update.model_dump(exclude_unset=True))`,
`Plato(**plato_data)` — supplied fields overwrite, `id` is untouched
(`PlatoUpdate` has no id field). -/
def mergePlato (p : Plato) (u : PlatoUpdate) : Plato :=
  { id := p.id, name := u.name.getD p.name, precio := u.precio.getD p.precio }

/-- Replacement at the index of the first record whose id matches
(`next((i for i, p in enumerate(platos_db) if p.id == plato_id), None)`
followed by `platos_db[plato_index] = updated_plato`): returns the
merged record and the new registry, or `none` when no id matches. -/
def updateFirst (db : List Plato) (plato_id : Int) (u : PlatoUpdate) :
    Option (Plato × List Plato) :=
  match db with
  | [] => none
  | p :: rest =>
    if p.id == plato_id then
      some (mergePlato p u, mergePlato p u :: rest)
    else
      match updateFirst rest plato_id u with
      | some (m, rest') => some (m, p :: rest')
      | none => none

/-- Handler `update_plato` (PUT /api/v1/platos/\x7bplato_id\x7d): payload
validation, then 404 when the id is absent, else in-place merge. -/
def update_plato (db : List Plato) (plato_id : Int) (u : PlatoUpdate) :
    Except ApiError (Plato × List Plato) :=
  if validUpdate u then
    match updateFirst db plato_id u with
    | some (m, db') => Except.ok (m, db')
    | none => Except.error (ApiError.httpException 404 "Plato not found")
  else
    Except.error ApiError.validationError

/-- Removal at the index of the first record whose id matches
(`platos_db.pop(plato_index)`): returns the removed record and the new
registry, or `none` when no id matches. -/
def deleteFirst (db : List Plato) (plato_id : Int) :
    Option (Plato × List Plato) :=
  match db with
  | [] => none
  | p :: rest =>
    if p.id == plato_id then
      some (p, rest)
    else
      match deleteFirst rest plato_id with
      | some (d, rest') => some (d, p :: rest')
      | none => none

/-- ASCII single quote, used in the deletion confirmation message. -/
def squote : String :=
  String.singleton (Char.ofNat 39)

/-- Confirmation message of `delete_plato`:
`f"Plato '\x7bdeleted_plato.name\x7d' deleted successfully"`. -/
def deleteMessage (name : String) : String :=
  "Plato " ++ squote ++ name ++ squote ++ " deleted successfully"

/-- Handler `delete_plato` (DELETE /api/v1/platos/\x7bplato_id\x7d): 404 when
the id is absent, else removes the record and returns the confirmation
message and the new registry. -/
def delete_plato (db : List Plato) (plato_id : Int) :
    Except ApiError (String × List Plato) :=
  match deleteFirst db plato_id with
  | some (d, db') => Except.ok (deleteMessage d.name, db')
  | none => Except.error (ApiError.httpException 404 "Plato not found")

/-- One request against the service, abstracted to the operation and its
inputs. -/
inductive Op where
  | list : Op
  | get (plato_id : Int) : Op
  | create (payload : PlatoCreate) : Op
  | update (plato_id : Int) (payload : PlatoUpdate) : Op
  | delete (plato_id : Int) : Op
deriving DecidableEq, Repr

/-- Registry state after handling one request: a failing request leaves
the registry as it was (handlers mutate only on success). -/
def stepState (db : List Plato) (op : Op) : List Plato :=
  match op with
  | Op.list => db
  | Op.get _ => db
  | Op.create payload =>
    match create_plato db payload with
    | Except.ok (_, db') => db'
    | Except.error _ => db
  | Op.update plato_id payload =>
    match update_plato db plato_id payload with
    | Except.ok (_, db') => db'
    | Except.error _ => db
  | Op.delete plato_id =>
    match delete_plato db plato_id with
    | Except.ok (_, db') => db'
    | Except.error _ => db

/-- Registry state after a sequence of requests. -/
def runOps (db : List Plato) (ops : List Op) : List Plato :=
  ops.foldl stepState db

/-- Ids of the dishes removed by the successful deletes of a request
sequence, in order. -/
def deletedIds (db : List Plato) (ops : List Op) : List Int :=
  match ops with
  | [] => []
  | op :: rest =>
    match op with
    | Op.delete plato_id =>
      match delete_plato db plato_id with
      | Except.ok (_, db') => plato_id :: deletedIds db' rest
      | Except.error _ => deletedIds db rest
    | _ => deletedIds (stepState db op) rest

/-- Id-uniqueness invariant of the registry. -/
def uniqueIds (db : List Plato) : Prop :=
  (db.map Plato.id).Nodup

/-- Create payload of the spec scenario: `{"name":"Tiramisu","precio":6.5}`. -/
def tiramisu : PlatoCreate :=
  { name := "Tiramisu", precio := 6.5 }

/-- The dish the spec scenario creates after deleting id 2 from the seed. -/
def tiramisuPlato : Plato :=
  { id := 4, name := "Tiramisu", precio := 6.5 }

/-- Update payload supplying only `precio` (the spec scenario
`PUT id=1 \x7b"precio": 20.0\x7d`). -/
def precioOnly20 : PlatoUpdate :=
  { name := none, precio := some 20.0 }

/-- Update payload supplying no field at all. -/
def emptyUpdate : PlatoUpdate :=
  { name := none, precio := none }

/-- The first seed dish after its price is updated to 20.0. -/
def pizzaAt20 : Plato :=
  { id := 1, name := "Pizza Margherita", precio := 20.0 }

/-! Helper lemmas about the embedded operations. -/

/-- Bounds of `List.foldl max`: the seed and every element are below the
result. -/
theorem foldl_max_bounds (xs : List Int) (a : Int) :
    a ≤ xs.foldl max a ∧ ∀ y ∈ xs, y ≤ xs.foldl max a := by
  induction xs generalizing a with
  | nil => exact ⟨le_refl a, by intro y hy; cases hy⟩
  | cons x xs ih =>
    obtain ⟨h1, h2⟩ := ih (max a x)
    refine ⟨le_trans (le_max_left a x) h1, ?_⟩
    intro y hy
    rcases List.mem_cons.mp hy with rfl | hy
    · exact le_trans (le_max_right a y) h1
    · exact h2 y hy

/-- The result of `List.foldl max` is the seed or one of the elements. -/
theorem foldl_max_mem (xs : List Int) (a : Int) :
    xs.foldl max a = a ∨ xs.foldl max a ∈ xs := by
  induction xs generalizing a with
  | nil => exact Or.inl rfl
  | cons x xs ih =>
    rcases ih (max a x) with h | h
    · rcases max_choice a x with hm | hm
      · exact Or.inl (by rw [List.foldl_cons, h, hm])
      · exact Or.inr (List.mem_cons.mpr (Or.inl (by rw [List.foldl_cons, h, hm])))
    · exact Or.inr (List.mem_cons.mpr (Or.inr h))

/-- Every element of the list is at most `listMaxD`. -/
theorem le_listMaxD (xs : List Int) (d : Int) : ∀ y ∈ xs, y ≤ listMaxD xs d := by
  intro y hy
  match xs, hy with
  | x :: rest, hy =>
    rcases List.mem_cons.mp hy with rfl | hy
    · exact (foldl_max_bounds rest y).1
    · exact (foldl_max_bounds rest x).2 y hy

/-- On a nonempty list, `listMaxD` is one of the elements. -/
theorem listMaxD_mem (xs : List Int) (d : Int) (h : xs ≠ []) :
    listMaxD xs d ∈ xs := by
  match xs with
  | x :: rest =>
    rcases foldl_max_mem rest x with he | he
    · exact List.mem_cons.mpr (Or.inl he)
    · exact List.mem_cons.mpr (Or.inr he)

/-- The id assigned by a create is strictly above every stored id, hence
fresh with respect to the current registry. -/
theorem newId_not_mem (db : List Plato) : newId db ∉ db.map Plato.id := by
  intro hmem
  have hle := le_listMaxD (db.map Plato.id) 0 _ hmem
  simp only [newId] at hle
  omega

/-- Successful create, unfolded: the validated payload is appended with
the fresh id. -/
theorem create_plato_eq (db : List Plato) (c : PlatoCreate)
    (h : validCreate c = true) :
    create_plato db c =
      Except.ok (({ id := newId db, name := c.name, precio := c.precio } : Plato),
        db ++ [{ id := newId db, name := c.name, precio := c.precio }]) := by
  simp [create_plato, h]

/-- Characterization of a successful `updateFirst`: the registry splits
at the first record whose id matches, and that record alone is replaced
by the merge. -/
theorem updateFirst_eq_some (db : List Plato) (pid : Int) (u : PlatoUpdate)
    (m : Plato) (db' : List Plato) (h : updateFirst db pid u = some (m, db')) :
    ∃ l1 p l2, db = l1 ++ p :: l2 ∧ p.id = pid ∧ (∀ q ∈ l1, q.id ≠ pid) ∧
      m = mergePlato p u ∧ db' = l1 ++ m :: l2 := by
  induction db generalizing db' with
  | nil => simp [updateFirst] at h
  | cons p rest ih =>
    by_cases hp : p.id = pid
    · simp only [updateFirst, beq_iff_eq, if_pos hp, Option.some.injEq,
        Prod.mk.injEq] at h
      obtain ⟨hm, hdb'⟩ := h
      exact ⟨[], p, rest, by simp, hp, by simp, hm.symm,
        by rw [← hdb', ← hm]; rfl⟩
    · simp only [updateFirst, beq_iff_eq, if_neg hp] at h
      match hrec : updateFirst rest pid u with
      | none => rw [hrec] at h; cases h
      | some (m2, rest') =>
        rw [hrec] at h
        simp only [Option.some.injEq, Prod.mk.injEq] at h
        obtain ⟨hm, hdb'⟩ := h
        obtain ⟨l1, q, l2, hsplit, hid, hfirst, hmerge, hrest'⟩ :=
          ih rest' (by rw [hrec, hm])
        refine ⟨p :: l1, q, l2, by rw [hsplit]; rfl, hid, ?_, hmerge, ?_⟩
        · intro r hr
          rcases List.mem_cons.mp hr with rfl | hr
          · exact hp
          · exact hfirst r hr
        · rw [← hdb', hrest']; rfl

/-- When the first matching record sits after `l1`, `updateFirst`
replaces exactly it. -/
theorem updateFirst_append (l1 l2 : List Plato) (p : Plato) (pid : Int)
    (u : PlatoUpdate) (hp : p.id = pid) (hfirst : ∀ q ∈ l1, q.id ≠ pid) :
    updateFirst (l1 ++ p :: l2) pid u =
      some (mergePlato p u, l1 ++ mergePlato p u :: l2) := by
  induction l1 with
  | nil => simp [updateFirst, hp]
  | cons q l1 ih =>
    have hq : (q.id == pid) = false :=
      beq_eq_false_iff_ne.mpr (hfirst q (List.mem_cons_self q l1))
    have hrec := ih (fun r hr => hfirst r (List.mem_cons_of_mem q hr))
    rw [List.cons_append]
    unfold updateFirst
    simp [hq, hrec]

/-- When no stored id matches, `updateFirst` finds nothing. -/
theorem updateFirst_eq_none (db : List Plato) (pid : Int) (u : PlatoUpdate)
    (h : ∀ p ∈ db, p.id ≠ pid) : updateFirst db pid u = none := by
  induction db with
  | nil => rfl
  | cons p rest ih =>
    simp only [updateFirst, beq_iff_eq, if_neg (h p (List.mem_cons_self p rest)),
      ih (fun q hq => h q (List.mem_cons_of_mem p hq))]

/-- Characterization of a successful `deleteFirst`: the registry splits
at the first record whose id matches, and that record alone is removed. -/
theorem deleteFirst_eq_some (db : List Plato) (pid : Int) (d : Plato)
    (db' : List Plato) (h : deleteFirst db pid = some (d, db')) :
    ∃ l1 l2, db = l1 ++ d :: l2 ∧ d.id = pid ∧ (∀ q ∈ l1, q.id ≠ pid) ∧
      db' = l1 ++ l2 := by
  induction db generalizing db' with
  | nil => simp [deleteFirst] at h
  | cons p rest ih =>
    by_cases hp : p.id = pid
    · simp only [deleteFirst, beq_iff_eq, if_pos hp, Option.some.injEq,
        Prod.mk.injEq] at h
      obtain ⟨rfl, rfl⟩ := h
      exact ⟨[], rest, by simp, hp, by simp, by simp⟩
    · simp only [deleteFirst, beq_iff_eq, if_neg hp] at h
      match hrec : deleteFirst rest pid with
      | none => rw [hrec] at h; cases h
      | some (d2, rest') =>
        rw [hrec] at h
        simp only [Option.some.injEq, Prod.mk.injEq] at h
        obtain ⟨hd, hdb'⟩ := h
        obtain ⟨l1, l2, hsplit, hid, hfirst, hrest'⟩ := ih rest' (by rw [hrec, hd])
        refine ⟨p :: l1, l2, by rw [hsplit]; rfl, hid, ?_, ?_⟩
        · intro r hr
          rcases List.mem_cons.mp hr with rfl | hr
          · exact hp
          · exact hfirst r hr
        · rw [← hdb', hrest']; rfl

/-- When no stored id matches, `deleteFirst` finds nothing. -/
theorem deleteFirst_eq_none (db : List Plato) (pid : Int)
    (h : ∀ p ∈ db, p.id ≠ pid) : deleteFirst db pid = none := by
  induction db with
  | nil => rfl
  | cons p rest ih =>
    simp only [deleteFirst, beq_iff_eq, if_neg (h p (List.mem_cons_self p rest)),
      ih (fun q hq => h q (List.mem_cons_of_mem p hq))]

/-- Inversion of a successful create: the payload was valid, the result
carries the fresh id, and the registry grew by exactly that record. -/
theorem create_plato_ok_inv (db : List Plato) (c : PlatoCreate) (p : Plato)
    (db' : List Plato) (h : create_plato db c = Except.ok (p, db')) :
    validCreate c = true ∧
    p = { id := newId db, name := c.name, precio := c.precio } ∧
    db' = db ++ [p] := by
  by_cases hv : validCreate c = true
  · rw [create_plato_eq db c hv] at h
    simp only [Except.ok.injEq, Prod.mk.injEq] at h
    exact ⟨hv, h.1.symm, by rw [← h.2, h.1]⟩
  · simp [create_plato, hv] at h

/-- Inversion of a successful update: the payload was valid and
`updateFirst` produced the result. -/
theorem update_plato_ok_inv (db : List Plato) (pid : Int) (u : PlatoUpdate)
    (m : Plato) (db' : List Plato)
    (h : update_plato db pid u = Except.ok (m, db')) :
    validUpdate u = true ∧ updateFirst db pid u = some (m, db') := by
  unfold update_plato at h
  split at h
  · next hv =>
    split at h
    · next m2 db2 heq =>
      simp only [Except.ok.injEq, Prod.mk.injEq] at h
      exact ⟨hv, by rw [heq, h.1, h.2]⟩
    · next => cases h
  · next => cases h

/-- Inversion of a successful delete: `deleteFirst` produced the result
and the message quotes the removed dish's name. -/
theorem delete_plato_ok_inv (db : List Plato) (pid : Int) (msg : String)
    (db' : List Plato) (h : delete_plato db pid = Except.ok (msg, db')) :
    ∃ d, deleteFirst db pid = some (d, db') ∧ msg = deleteMessage d.name := by
  unfold delete_plato at h
  split at h
  · next d db2 heq =>
    simp only [Except.ok.injEq, Prod.mk.injEq] at h
    exact ⟨d, by rw [heq, h.2], h.1.symm⟩
  · next => cases h

/-- A successful in-place update does not change the stored id sequence. -/
theorem updateFirst_map_id (db : List Plato) (pid : Int) (u : PlatoUpdate)
    (m : Plato) (db' : List Plato) (h : updateFirst db pid u = some (m, db')) :
    db'.map Plato.id = db.map Plato.id := by
  obtain ⟨l1, p, l2, rfl, hid, hfirst, hm, rfl⟩ :=
    updateFirst_eq_some db pid u m db' h
  subst hm
  simp [mergePlato]

/-- A successful update handler call does not change the stored id
sequence. -/
theorem update_plato_map_id (db : List Plato) (pid : Int) (u : PlatoUpdate)
    (m : Plato) (db' : List Plato)
    (h : update_plato db pid u = Except.ok (m, db')) :
    db'.map Plato.id = db.map Plato.id :=
  updateFirst_map_id db pid u m db' (update_plato_ok_inv db pid u m db' h).2

/-- The registry after a successful delete is a sublist of the one
before. -/
theorem deleteFirst_sublist (db : List Plato) (pid : Int) (d : Plato)
    (db' : List Plato) (h : deleteFirst db pid = some (d, db')) :
    db'.Sublist db := by
  obtain ⟨l1, l2, rfl, hid, hfirst, rfl⟩ := deleteFirst_eq_some db pid d db' h
  exact (List.sublist_cons_self d l2).append_left l1

/-- A create payload violating a field constraint fails pydantic
validation. -/
theorem validCreate_eq_false (c : PlatoCreate)
    (hc : c.name.length = 0 ∨ c.name.length > 100 ∨ c.precio ≤ 0) :
    validCreate c = false := by
  rw [Bool.eq_false_iff]
  intro hv
  simp only [validCreate, validName, validPrecio, Bool.and_eq_true,
    decide_eq_true_eq] at hv
  obtain ⟨⟨h1, h2⟩, h3⟩ := hv
  rcases hc with h | h | h
  · omega
  · omega
  · exact absurd h3 (not_lt.mpr h)

/-- An update payload supplying a field that violates its constraint
fails pydantic validation. -/
theorem validUpdate_eq_false (u : PlatoUpdate)
    (hu : (∃ n, u.name = some n ∧ (n.length = 0 ∨ n.length > 100)) ∨
          (∃ q, u.precio = some q ∧ q ≤ 0)) :
    validUpdate u = false := by
  rw [Bool.eq_false_iff]
  intro hv
  simp only [validUpdate, Bool.and_eq_true] at hv
  obtain ⟨hn, hq⟩ := hv
  rcases hu with ⟨n, hsome, hbad⟩ | ⟨q, hsome, hbad⟩
  · rw [hsome] at hn
    simp only [validName, Bool.and_eq_true, decide_eq_true_eq] at hn
    omega
  · rw [hsome] at hq
    simp only [validPrecio, decide_eq_true_eq] at hq
    exact absurd hq (not_lt.mpr hbad)

/-- The Tiramisu payload passes validation. -/
theorem validCreate_tiramisu : validCreate tiramisu = true := by
  have h1 : validName "Tiramisu" = true := by decide
  have h2 : validPrecio (6.5 : ℚ) = true := by
    simp only [validPrecio, decide_eq_true_eq]
    norm_num
  simp [validCreate, tiramisu, h1, h2]

/-- The price-only update payload passes validation. -/
theorem validUpdate_precioOnly20 : validUpdate precioOnly20 = true := by
  have h2 : validPrecio (20.0 : ℚ) = true := by
    simp only [validPrecio, decide_eq_true_eq]
    norm_num
  simp [validUpdate, precioOnly20, h2]

/-- The empty update payload passes validation. -/
theorem validUpdate_emptyUpdate : validUpdate emptyUpdate = true := rfl

/-- Valid update, unfolded past the framework validation step. -/
theorem update_plato_of_valid (db : List Plato) (pid : Int) (u : PlatoUpdate)
    (hv : validUpdate u = true) :
    update_plato db pid u =
      (match updateFirst db pid u with
       | some (m, db') => Except.ok (m, db')
       | none => Except.error (ApiError.httpException 404 "Plato not found")) := by
  simp [update_plato, hv]

/-- Concrete run of create on the seed registry. -/
theorem create_plato_seed_tiramisu :
    create_plato platos_db tiramisu =
      Except.ok (tiramisuPlato, platos_db ++ [tiramisuPlato]) := by
  rw [create_plato_eq platos_db tiramisu validCreate_tiramisu]
  rfl

/-- Concrete run of the price-only update on the seed registry. -/
theorem update_plato_seed_precio20 :
    update_plato platos_db 1 precioOnly20 =
      Except.ok (pizzaAt20, [pizzaAt20, pastaCarbonara, ensaladaCesar]) := by
  rw [update_plato_of_valid platos_db 1 precioOnly20 validUpdate_precioOnly20]
  rfl

/-- Concrete run of the empty update on the seed registry. -/
theorem update_plato_seed_empty :
    update_plato platos_db 1 emptyUpdate =
      Except.ok (pizzaMargherita, platos_db) := by
  rw [update_plato_of_valid platos_db 1 emptyUpdate validUpdate_emptyUpdate]
  rfl

/-- Replacing the record at position `l1.length` leaves every other
position unchanged. -/
theorem get_append_replace (l1 l2 : List Plato) (p m : Plato) (i : Nat)
    (hi : i < (l1 ++ p :: l2).length) (hi' : i < (l1 ++ m :: l2).length)
    (hne : i ≠ l1.length) :
    (l1 ++ m :: l2).get ⟨i, hi'⟩ = (l1 ++ p :: l2).get ⟨i, hi⟩ := by
  induction l1 generalizing i with
  | nil =>
    match i, hne with
    | Nat.succ j, _ => rfl
  | cons a l1 ih =>
    match i, hne with
    | 0, _ => rfl
    | Nat.succ j, hne =>
      have hi2 : j < (l1 ++ p :: l2).length := Nat.lt_of_succ_lt_succ hi
      have hi2' : j < (l1 ++ m :: l2).length := Nat.lt_of_succ_lt_succ hi'
      have hne2 : j ≠ l1.length := fun heq => hne (by simp [heq])
      exact ih j hi2 hi2' hne2

/-- The record at position `l1.length` of `l1 ++ p :: l2` is `p`. -/
theorem get_append_length (l1 l2 : List Plato) (p : Plato)
    (h : l1.length < (l1 ++ p :: l2).length) :
    (l1 ++ p :: l2).get ⟨l1.length, h⟩ = p := by
  induction l1 with
  | nil => rfl
  | cons a l1 ih => exact ih (Nat.lt_of_succ_lt_succ h)

/-- Every single request preserves id uniqueness. -/
theorem stepState_preserves_uniqueIds (db : List Plato) (op : Op)
    (h : uniqueIds db) : uniqueIds (stepState db op) := by
  match op with
  | Op.list => exact h
  | Op.get _ => exact h
  | Op.create c =>
    by_cases hv : validCreate c = true
    · simp only [stepState, create_plato_eq db c hv]
      simp only [uniqueIds, List.map_append, List.map_cons, List.map_nil] at h ⊢
      rw [List.nodup_append]
      refine ⟨h, List.nodup_singleton _, ?_⟩
      intro a ha hb
      rw [List.mem_singleton] at hb
      subst hb
      exact newId_not_mem db ha
    · simpa [stepState, create_plato, hv] using h
  | Op.update pid u =>
    simp only [stepState]
    split
    · next m db' heq =>
      simpa [uniqueIds, update_plato_map_id db pid u m db' heq] using h
    · next => exact h
  | Op.delete pid =>
    simp only [stepState]
    split
    · next msg db' heq =>
      obtain ⟨d, hdel, _⟩ := delete_plato_ok_inv db pid msg db' heq
      exact ((deleteFirst_sublist db pid d db' hdel).map Plato.id).nodup h
    · next => exact h

/-- Any request sequence started on a registry with unique ids keeps
them unique. -/
theorem runOps_preserves_uniqueIds (ops : List Op) :
    ∀ db : List Plato, uniqueIds db → uniqueIds (runOps db ops) := by
  induction ops with
  | nil => exact fun db h => h
  | cons op rest ih =>
    exact fun db h => ih (stepState db op) (stepState_preserves_uniqueIds db op h)

/-! Claims. -/

/-- C1 (claim as stated is false on the code): after deleting id 3 from
the seed registry, the next create assigns id 3 again, an id that
belonged to a dish deleted earlier in the run. The code computes the new
id as (max id currently stored) + 1, so deleting the dish with the
maximum id frees that id for reuse. -/
theorem C1_counterexample :
    ¬ (∀ (ops : List Op) (c : PlatoCreate) (p : Plato) (db' : List Plato),
        create_plato (runOps platos_db ops) c = Except.ok (p, db') →
        p.id ∉ deletedIds platos_db ops) := by
  intro hclaim
  have hcreate : create_plato (runOps platos_db [Op.delete 3]) tiramisu =
      Except.ok (({ id := 3, name := "Tiramisu", precio := 6.5 } : Plato),
        runOps platos_db [Op.delete 3] ++
          [{ id := 3, name := "Tiramisu", precio := 6.5 }]) := by
    rw [create_plato_eq _ tiramisu validCreate_tiramisu]
    rfl
  exact hclaim [Op.delete 3] tiramisu _ _ hcreate (by decide)

/-- C1 (amended): for every request sequence from the seed state, a
successful create assigns an id that is not currently present in the
registry (it is the maximum stored id plus one, strictly above every
stored id); an id freed by a delete can be reused once no larger id
remains stored. -/
theorem C1_amended_create_id_not_stored (ops : List Op) (c : PlatoCreate)
    (p : Plato) (db' : List Plato)
    (h : create_plato (runOps platos_db ops) c = Except.ok (p, db')) :
    p.id ∉ (runOps platos_db ops).map Plato.id := by
  obtain ⟨hv, hp, hdb'⟩ := create_plato_ok_inv _ c p db' h
  rw [hp]
  exact newId_not_mem _

/-- Witness for C1 (amended) at the empty request sequence and the
Tiramisu payload. -/
theorem C1_amended_create_id_not_stored_witness :
    tiramisuPlato.id ∉ (runOps platos_db []).map Plato.id :=
  C1_amended_create_id_not_stored [] tiramisu tiramisuPlato
    (platos_db ++ [tiramisuPlato]) create_plato_seed_tiramisu

/-- C2: a successful create assigns the new dish the id 1 on an empty
registry and otherwise (max stored id) + 1 — one more than an id that is
stored and is an upper bound of all stored ids — and the returned dish
carrying that id is appended to the registry. -/
theorem C2_create_assigns_max_plus_one (db : List Plato) (c : PlatoCreate)
    (p : Plato) (db' : List Plato)
    (h : create_plato db c = Except.ok (p, db')) :
    (db = [] → p.id = 1) ∧
    (db ≠ [] → (p.id - 1) ∈ db.map Plato.id ∧ ∀ q ∈ db, q.id ≤ p.id - 1) ∧
    db' = db ++ [p] := by
  obtain ⟨hv, hp, hdb'⟩ := create_plato_ok_inv db c p db' h
  have hid : p.id = listMaxD (db.map Plato.id) 0 + 1 := by rw [hp]; rfl
  refine ⟨?_, ?_, hdb'⟩
  · intro hnil
    subst hnil
    rw [hid]
    rfl
  · intro hne
    constructor
    · rw [hid]
      simpa using listMaxD_mem (db.map Plato.id) 0 (by simpa using hne)
    · intro q hq
      rw [hid]
      have := le_listMaxD (db.map Plato.id) 0 q.id (List.mem_map_of_mem Plato.id hq)
      omega

/-- Witness for C2 on the seed registry and the Tiramisu payload. -/
theorem C2_create_assigns_max_plus_one_witness :
    (platos_db = [] → tiramisuPlato.id = 1) ∧
    (platos_db ≠ [] →
      (tiramisuPlato.id - 1) ∈ platos_db.map Plato.id ∧
      ∀ q ∈ platos_db, q.id ≤ tiramisuPlato.id - 1) ∧
    platos_db ++ [tiramisuPlato] = platos_db ++ [tiramisuPlato] :=
  C2_create_assigns_max_plus_one platos_db tiramisu tiramisuPlato
    (platos_db ++ [tiramisuPlato]) create_plato_seed_tiramisu

/-- C3: a create payload whose name has length 0 or above 100 or whose
price is not positive, and an update payload supplying such a field,
are rejected with a ValidationError before the handler body runs, and
the registry is left exactly unchanged. -/
theorem C3_invalid_payload_rejected (db : List Plato) (pid : Int)
    (c : PlatoCreate) (u : PlatoUpdate)
    (hc : c.name.length = 0 ∨ c.name.length > 100 ∨ c.precio ≤ 0)
    (hu : (∃ n, u.name = some n ∧ (n.length = 0 ∨ n.length > 100)) ∨
          (∃ q, u.precio = some q ∧ q ≤ 0)) :
    create_plato db c = Except.error ApiError.validationError ∧
    update_plato db pid u = Except.error ApiError.validationError ∧
    stepState db (Op.create c) = db ∧
    stepState db (Op.update pid u) = db := by
  have hvc := validCreate_eq_false c hc
  have hvu := validUpdate_eq_false u hu
  have h1 : create_plato db c = Except.error ApiError.validationError := by
    simp [create_plato, hvc]
  have h2 : update_plato db pid u = Except.error ApiError.validationError := by
    simp [update_plato, hvu]
  exact ⟨h1, h2, by simp [stepState, h1], by simp [stepState, h2]⟩

/-- Witness for C3: an empty name on create and a zero price on update,
against the seed registry. -/
theorem C3_invalid_payload_rejected_witness :
    create_plato platos_db { name := "", precio := 1 } =
      Except.error ApiError.validationError ∧
    update_plato platos_db 1 { name := none, precio := some 0 } =
      Except.error ApiError.validationError ∧
    stepState platos_db (Op.create { name := "", precio := 1 }) = platos_db ∧
    stepState platos_db (Op.update 1 { name := none, precio := some 0 }) =
      platos_db :=
  C3_invalid_payload_rejected platos_db 1 { name := "", precio := 1 }
    { name := none, precio := some 0 }
    (Or.inl (by decide)) (Or.inr ⟨0, rfl, le_refl 0⟩)

/-- C4: when no stored dish has the requested id, get, update (with a
payload accepted by validation) and delete each fail with
HTTP 404 and detail "Plato not found", and the registry is left exactly
unchanged. -/
theorem C4_absent_id_not_found (db : List Plato) (pid : Int) (u : PlatoUpdate)
    (habs : ∀ p ∈ db, p.id ≠ pid) (hv : validUpdate u = true) :
    get_plato db pid =
      Except.error (ApiError.httpException 404 "Plato not found") ∧
    update_plato db pid u =
      Except.error (ApiError.httpException 404 "Plato not found") ∧
    delete_plato db pid =
      Except.error (ApiError.httpException 404 "Plato not found") ∧
    stepState db (Op.get pid) = db ∧
    stepState db (Op.update pid u) = db ∧
    stepState db (Op.delete pid) = db := by
  have hfind : db.find? (fun p => p.id == pid) = none := by
    rw [List.find?_eq_none]
    intro p hp
    simpa using habs p hp
  have h1 : get_plato db pid =
      Except.error (ApiError.httpException 404 "Plato not found") := by
    simp [get_plato, hfind]
  have h2 : update_plato db pid u =
      Except.error (ApiError.httpException 404 "Plato not found") := by
    simp [update_plato, hv, updateFirst_eq_none db pid u habs]
  have h3 : delete_plato db pid =
      Except.error (ApiError.httpException 404 "Plato not found") := by
    simp [delete_plato, deleteFirst_eq_none db pid habs]
  exact ⟨h1, h2, h3, rfl, by simp [stepState, h2], by simp [stepState, h3]⟩

/-- Witness for C4 at id 99 on the seed registry with the empty update
payload. -/
theorem C4_absent_id_not_found_witness :
    get_plato platos_db 99 =
      Except.error (ApiError.httpException 404 "Plato not found") ∧
    update_plato platos_db 99 emptyUpdate =
      Except.error (ApiError.httpException 404 "Plato not found") ∧
    delete_plato platos_db 99 =
      Except.error (ApiError.httpException 404 "Plato not found") ∧
    stepState platos_db (Op.get 99) = platos_db ∧
    stepState platos_db (Op.update 99 emptyUpdate) = platos_db ∧
    stepState platos_db (Op.delete 99) = platos_db :=
  C4_absent_id_not_found platos_db 99 emptyUpdate (by decide)
    validUpdate_emptyUpdate

/-- C5: updating the first stored dish whose id matches, with a payload
accepted by validation, succeeds; the returned dish is the merged
record that replaces the old one at its position; its id is unchanged,
a supplied field takes the supplied value and an unsupplied field keeps
its prior value. -/
theorem C5_partial_update_merges (l1 l2 : List Plato) (p : Plato)
    (u : PlatoUpdate) (hfirst : ∀ q ∈ l1, q.id ≠ p.id)
    (hv : validUpdate u = true) :
    update_plato (l1 ++ p :: l2) p.id u =
      Except.ok (mergePlato p u, l1 ++ mergePlato p u :: l2) ∧
    (mergePlato p u).id = p.id ∧
    (u.name = none → (mergePlato p u).name = p.name) ∧
    (∀ n, u.name = some n → (mergePlato p u).name = n) ∧
    (u.precio = none → (mergePlato p u).precio = p.precio) ∧
    (∀ q, u.precio = some q → (mergePlato p u).precio = q) := by
  refine ⟨?_, rfl, ?_, ?_, ?_, ?_⟩
  · rw [update_plato_of_valid _ _ _ hv,
      updateFirst_append l1 l2 p p.id u rfl hfirst]
  · intro h
    simp [mergePlato, h]
  · intro n h
    simp [mergePlato, h]
  · intro h
    simp [mergePlato, h]
  · intro q h
    simp [mergePlato, h]

/-- Witness for C5: the spec scenario update of dish 1 with only a new
price on the seed registry. -/
theorem C5_partial_update_merges_witness :
    update_plato ([] ++ pizzaMargherita :: [pastaCarbonara, ensaladaCesar])
        pizzaMargherita.id precioOnly20 =
      Except.ok (mergePlato pizzaMargherita precioOnly20,
        [] ++ mergePlato pizzaMargherita precioOnly20 ::
          [pastaCarbonara, ensaladaCesar]) ∧
    (mergePlato pizzaMargherita precioOnly20).id = pizzaMargherita.id ∧
    (precioOnly20.name = none →
      (mergePlato pizzaMargherita precioOnly20).name = pizzaMargherita.name) ∧
    (∀ n, precioOnly20.name = some n →
      (mergePlato pizzaMargherita precioOnly20).name = n) ∧
    (precioOnly20.precio = none →
      (mergePlato pizzaMargherita precioOnly20).precio =
        pizzaMargherita.precio) ∧
    (∀ q, precioOnly20.precio = some q →
      (mergePlato pizzaMargherita precioOnly20).precio = q) :=
  C5_partial_update_merges [] [pastaCarbonara, ensaladaCesar] pizzaMargherita
    precioOnly20 (by simp) validUpdate_precioOnly20

/-- C6: a successful update with a payload supplying no field leaves the
registry exactly as it was, and the returned dish is one of the stored
dishes. -/
theorem C6_empty_update_identity (db : List Plato) (pid : Int) (m : Plato)
    (db' : List Plato)
    (h : update_plato db pid emptyUpdate = Except.ok (m, db')) :
    db' = db ∧ m ∈ db := by
  obtain ⟨hv, hup⟩ := update_plato_ok_inv db pid emptyUpdate m db' h
  obtain ⟨l1, p, l2, rfl, hid, hfirst, hm, rfl⟩ :=
    updateFirst_eq_some db pid emptyUpdate m db' hup
  have hmp : m = p := hm
  refine ⟨by rw [hmp], ?_⟩
  rw [hmp]
  exact List.mem_append.mpr (Or.inr (List.mem_cons_self p l2))

/-- Witness for C6: the empty update of dish 1 on the seed registry. -/
theorem C6_empty_update_identity_witness :
    platos_db = platos_db ∧ pizzaMargherita ∈ platos_db :=
  C6_empty_update_identity platos_db 1 pizzaMargherita platos_db
    update_plato_seed_empty

/-- C7: id uniqueness is an invariant — after every sequence of
requests starting from the seed registry, no two stored dishes share an
id. -/
theorem C7_unique_ids_invariant (ops : List Op) :
    uniqueIds (runOps platos_db ops) :=
  runOps_preserves_uniqueIds ops platos_db
    (show (platos_db.map Plato.id).Nodup by decide)

/-- C8: list-all is a total operation returning exactly the stored
dishes in order; a successful create appends the new dish after all
previously stored ones, and a successful update leaves the id sequence
(hence every dish's position) unchanged. -/
theorem C8_list_all_in_order (db db2 db3 : List Plato) (c : PlatoCreate)
    (p m : Plato) (pid : Int) (u : PlatoUpdate)
    (hc : create_plato db c = Except.ok (p, db2))
    (hu : update_plato db pid u = Except.ok (m, db3)) :
    get_platos db = db ∧ get_platos db2 = db ++ [p] ∧
    (get_platos db3).map Plato.id = db.map Plato.id := by
  obtain ⟨hv, hp, hdb2⟩ := create_plato_ok_inv db c p db2 hc
  exact ⟨rfl, hdb2, update_plato_map_id db pid u m db3 hu⟩

/-- Witness for C8 on the seed registry, the Tiramisu create and the
price-only update of dish 1. -/
theorem C8_list_all_in_order_witness :
    get_platos platos_db = platos_db ∧
    get_platos (platos_db ++ [tiramisuPlato]) = platos_db ++ [tiramisuPlato] ∧
    (get_platos [pizzaAt20, pastaCarbonara, ensaladaCesar]).map Plato.id =
      platos_db.map Plato.id :=
  C8_list_all_in_order platos_db (platos_db ++ [tiramisuPlato])
    [pizzaAt20, pastaCarbonara, ensaladaCesar] tiramisu tiramisuPlato pizzaAt20
    1 precioOnly20 create_plato_seed_tiramisu update_plato_seed_precio20

/-- C9: the spec scenario — from the seed registry (ids 1, 2, 3),
deleting id 2 succeeds with its confirmation message; getting id 2 then
fails with HTTP 404 "Plato not found"; creating the Tiramisu payload
then yields id 4; and listing finally returns the dishes with ids
[1, 3, 4] in that order. -/
theorem C9_scenario :
    delete_plato platos_db 2 =
      Except.ok (deleteMessage "Pasta Carbonara",
        [pizzaMargherita, ensaladaCesar]) ∧
    get_plato [pizzaMargherita, ensaladaCesar] 2 =
      Except.error (ApiError.httpException 404 "Plato not found") ∧
    create_plato [pizzaMargherita, ensaladaCesar] tiramisu =
      Except.ok (tiramisuPlato,
        [pizzaMargherita, ensaladaCesar, tiramisuPlato]) ∧
    (get_platos [pizzaMargherita, ensaladaCesar, tiramisuPlato]).map Plato.id =
      [1, 3, 4] := by
  refine ⟨rfl, rfl, ?_, rfl⟩
  rw [create_plato_eq _ tiramisu validCreate_tiramisu]
  rfl

/-- C10: a successful partial update keeps the dish's id equal to the
requested id, keeps the number of stored dishes, and leaves every
position holding a dish of a different id exactly unchanged. -/
theorem C10_update_preserves_frame (db : List Plato) (pid : Int)
    (u : PlatoUpdate) (m : Plato) (db' : List Plato)
    (h : update_plato db pid u = Except.ok (m, db')) :
    m.id = pid ∧ db'.length = db.length ∧
    ∀ i (hi : i < db.length) (hi' : i < db'.length),
      (db.get ⟨i, hi⟩).id ≠ pid → db'.get ⟨i, hi'⟩ = db.get ⟨i, hi⟩ := by
  obtain ⟨hv, hup⟩ := update_plato_ok_inv db pid u m db' h
  obtain ⟨l1, p, l2, rfl, hid, hfirst, hm, rfl⟩ :=
    updateFirst_eq_some db pid u m db' hup
  refine ⟨by rw [hm]; exact hid, by simp, ?_⟩
  intro i hi hi' hgetne
  by_cases heq : i = l1.length
  · subst heq
    exact absurd (by rw [get_append_length l1 l2 p hi]; exact hid) hgetne
  · exact get_append_replace l1 l2 p m i hi hi' heq

/-- Witness for C10: the price-only update of dish 1 on the seed
registry. -/
theorem C10_update_preserves_frame_witness :
    pizzaAt20.id = 1 ∧
    ([pizzaAt20, pastaCarbonara, ensaladaCesar] : List Plato).length =
      platos_db.length ∧
    ∀ i (hi : i < platos_db.length)
      (hi' : i < ([pizzaAt20, pastaCarbonara, ensaladaCesar] : List Plato).length),
      (platos_db.get ⟨i, hi⟩).id ≠ 1 →
        ([pizzaAt20, pastaCarbonara, ensaladaCesar] : List Plato).get ⟨i, hi'⟩ =
          platos_db.get ⟨i, hi⟩ :=
  C10_update_preserves_frame platos_db 1 precioOnly20 pizzaAt20
    [pizzaAt20, pastaCarbonara, ensaladaCesar] update_plato_seed_precio20

end DishRegistry
